import Mathlib

/-!
Verification development for the Québec 511 cameras slideshow viewer.

The development shallowly embeds the repository's feed-ingestion and
media-URL/playback logic as executable Lean definitions and proves the
specification's testable properties about them.  All definitions are
translated from the JavaScript source (the React component file); string
manipulation is modelled on `List Char` via `String.data` so that every
definition evaluates inside the kernel.
-/

namespace Q511

/-! ## Character-list string helpers (models of the JS string primitives) -/

/-- Splits a character list on a separator character.  The result always has
at least one (possibly empty) component; models `String.prototype.split` with
a single-character separator. -/
def splitOnChar (c : Char) : List Char → List (List Char)
  | [] => [[]]
  | x :: xs =>
    match splitOnChar c xs with
    | [] => [[]]
    | h :: t => if x = c then [] :: h :: t else (x :: h) :: t

/-- Model of JavaScript `String.prototype.trim` (whitespace at both ends
removed; the JS definition also strips some exotic Unicode whitespace, which
does not occur in this data). -/
def jsTrim (s : String) : String :=
  ⟨((s.data.dropWhile Char.isWhitespace).reverse.dropWhile Char.isWhitespace).reverse⟩

/-- Model of JavaScript `String.prototype.toLowerCase` (per-character
lowercasing; sufficient for the ASCII/Latin data this app handles). -/
def jsToLower (s : String) : String :=
  ⟨s.data.map Char.toLower⟩

/-- Model of JavaScript truthiness-based defaulting for strings:
`a || b` evaluates to `b` exactly when `a` is the empty string. -/
def jsOr (a b : String) : String :=
  if a = "" then b else a

/-- Model of `String.prototype.includes`: substring (infix) test. -/
def strIncludes (s pat : String) : Bool :=
  decide (pat.data <:+: s.data)

/-- The string `t` is a suffix of `s` (the "trailing" relation used to state
the cache-bust-parameter properties). -/
def strEndsWith (s t : String) : Prop :=
  t.data <:+ s.data

/-- The string `t` is a prefix of `s` (used to state that appending the salt
preserves the original URL, any query string included). -/
def strStartsWith (s t : String) : Prop :=
  t.data <+: s.data

/-- The string `t` occurs inside `s`. -/
def strContainsSub (s t : String) : Prop :=
  t.data <:+: s.data

instance (s t : String) : Decidable (strEndsWith s t) := by
  unfold strEndsWith; infer_instance

instance (s t : String) : Decidable (strStartsWith s t) := by
  unfold strStartsWith; infer_instance

instance (s t : String) : Decidable (strContainsSub s t) := by
  unfold strContainsSub; infer_instance

/-- The final `/`-separated segment of a string (used to state the
"final path segment" property of derived snapshot URLs). -/
def lastPathSegment (s : String) : String :=
  ⟨(splitOnChar '/' s.data).getLastD []⟩

/-! ## URL parsing (model of `new URL` + `searchParams.get`) -/

/-- Hex digit value, as used by percent-decoding. -/
def hexVal (c : Char) : Option Nat :=
  if '0' ≤ c ∧ c ≤ '9' then some (c.toNat - '0'.toNat)
  else if 'a' ≤ c ∧ c ≤ 'f' then some (c.toNat - 'a'.toNat + 10)
  else if 'A' ≤ c ∧ c ≤ 'F' then some (c.toNat - 'A'.toNat + 10)
  else none

/-- `application/x-www-form-urlencoded` decoding as performed by
`URLSearchParams` (`+` becomes a space, `%HH` becomes the coded character;
modelled for the ASCII range, which covers this app's ids). -/
def formDecode : List Char → List Char
  | [] => []
  | '+' :: r => ' ' :: formDecode r
  | '%' :: a :: b :: r =>
    match hexVal a, hexVal b with
    | some x, some y => Char.ofNat (16 * x + y) :: formDecode r
    | _, _ => '%' :: formDecode (a :: b :: r)
  | c :: r => c :: formDecode r

/-- Coarse model of the WHATWG `new URL(url)` validity requirement used by
`extractIdFromFenetre`: the constructor succeeds only for an absolute URL,
i.e. one starting with a scheme (`ALPHA *(ALPHA / DIGIT / "+" / "-" / ".")`
followed by `:`); host-level validation is not modelled. -/
def urlParses (s : String) : Bool :=
  match splitOnChar ':' s.data with
  | scheme :: _ :: _ =>
    match scheme with
    | [] => false
    | c :: cs => c.isAlpha && cs.all fun x => x.isAlpha || x.isDigit || x = '+' || x = '-' || x = '.'
  | _ => false

/-- The query component of a URL string: the characters after the first `?`
that precedes any `#`, empty when there is no query. -/
def queryOf (s : String) : List Char :=
  let beforeHash := (splitOnChar '#' s.data).headD []
  match splitOnChar '?' beforeHash with
  | [] => []
  | _ :: rest => if rest = [] then [] else List.intercalate ['?'] rest

/-- Model of `URLSearchParams.get(name)`: the first `&`-separated pair of the
query whose (form-decoded) key equals `name`, yielding its (form-decoded)
value; empty pairs are skipped; a pair without `=` has the empty value. -/
def getParam (query : List Char) (name : List Char) : Option (List Char) :=
  ((splitOnChar '&' query).filter (· ≠ [])).findSome? fun p =>
    let k := p.takeWhile (· ≠ '=')
    let v := (p.dropWhile (· ≠ '=')).drop 1
    if formDecode k = name then some (formDecode v) else none

/-- `extractIdFromFenetre(url)` from the source: `new URL(url)` (returning
`""` when the constructor throws), then `searchParams.get("id")`, with both
`null` and the empty string collapsing to `""`. -/
def extractIdFromFenetre (url : String) : String :=
  if urlParses url then
    match getParam (queryOf url) ['i', 'd'] with
    | some v => ⟨v⟩
    | none => ""
  else ""

end Q511

namespace Q511

/-! ## Camera records and feed normalization -/

/-- `CameraRecord`: the normalized camera returned by `normalizeCamera`. -/
structure CameraRecord where
  id : String
  number : String
  nameFr : String
  nameEn : String
  since : String
  route : String
  region : String
  border : String
  bridge : String
  url : String
  imgDirect : String
  lat : Option Rat
  lon : Option Rat
deriving DecidableEq, Repr

/-- Raw feed record: the JSON/CSV properties as key–value pairs (scalar
values coerced to strings, as `String(...)` does in the source). -/
abbrev RawProps := List (String × String)

/-- Property access `r.key` on a raw record, `""` when absent. -/
def getS (r : RawProps) (k : String) : String :=
  (r.lookup k).getD ""

/-- `normalizeCamera(r)` from the source; `lat`/`lon` are passed by the
caller (the GeoJSON path destructures them from the geometry coordinates,
the CSV path leaves them absent). -/
def normalizeCamera (r : RawProps) (lat lon : Option Rat) : CameraRecord where
  id := jsOr (getS r "IDEcamera") (jsOr (getS r "idecamera") (getS r "id"))
  number := jsOr (getS r "NumeroCamera") (getS r "numerocamera")
  nameFr := jsTrim (getS r "DescriptionLocalisationFr")
  nameEn := jsTrim (getS r "DescriptionLocalisationEn")
  since := jsTrim (getS r "DateDebutDiffusion")
  route := jsTrim (getS r "NumeroRoute")
  region := jsTrim (getS r "NomRegionDiffusion")
  border := jsTrim (getS r "NomPosteFrontalier")
  bridge := jsTrim (getS r "NomPontFrontalier")
  url := jsTrim (jsOr (getS r "URL_FLUX_DONNEE") (jsOr (getS r "url_flux_donnee") (getS r "url")))
  imgDirect := jsTrim (jsOr (getS r "url-image-en-direct") (getS r "url_image_en_direct"))
  lat := lat
  lon := lon

end Q511

namespace Q511

/-! ## Media URL derivation (`buildVariants`) -/

/-- `ORIGIN` from the source, fixed at its production default
(`https://www.quebec511.info`; in dev builds the same constant is the proxy
path `/q511` or an environment override — a query-free prefix either way). -/
def ORIGIN : String := "https://www.quebec511.info"

/-- The `withSalt` closure inside `buildVariants`: appends the cache-bust
counter as a `_rs` query parameter, with `&` when the URL already has a
query string and `?` otherwise; the empty string is passed through. -/
def withSalt (salt : Nat) (u : String) : String :=
  if u = "" then u
  else if '?' ∈ u.data then u ++ "&_rs=" ++ toString salt
  else u ++ "?_rs=" ++ toString salt

/-- The `MediaVariantSet` returned by `buildVariants`. -/
structure MediaVariants where
  id : String
  snap : String
  jpg : String
  m3u8 : String
  html : String
deriving DecidableEq, Repr

/-- `buildVariants(camera, salt)` from the source; returns `none` for the
empty object `{}` produced when no id can be extracted. -/
def buildVariants (camera : CameraRecord) (salt : Nat) : Option MediaVariants :=
  let fen := camera.url
  let id := extractIdFromFenetre fen
  if id = "" then none
  else some
    { id := id
      snap := withSalt salt (jsOr camera.imgDirect (ORIGIN ++ "/Images/Cameras/Quebec/cam/" ++ id ++ ".jpg"))
      jpg := withSalt salt (ORIGIN ++ "/Carte/Fenetres/camera.ashx?id=" ++ id ++ "&format=jpg")
      m3u8 := withSalt salt (ORIGIN ++ "/Carte/Fenetres/camera.ashx?id=" ++ id ++ "&format=m3u8")
      html := withSalt salt fen }

/-! ## Feed loading (`useCameras`) -/

/-- One GeoJSON feature of the primary feed: its `properties` object and the
optional `geometry.coordinates` array. -/
structure GeoFeature where
  properties : RawProps
  geometryCoords : Option (List Rat)
deriving DecidableEq, Repr

/-- The primary feed body (`gj.features || []` is modelled by the list). -/
structure GeoJson where
  features : List GeoFeature
deriving DecidableEq, Repr

instance {ε α : Type} [DecidableEq ε] [DecidableEq α] : DecidableEq (Except ε α) := fun
  | .error a, .error b => decidable_of_iff (a = b) (by simp)
  | .error _, .ok _ => isFalse (by simp)
  | .ok _, .error _ => isFalse (by simp)
  | .ok a, .ok b => decidable_of_iff (a = b) (by simp)

/-- Outcome of one `fetch` as observed by the loader: a thrown network
error, or a response with an `ok` flag and a body that either parses to `α`
or throws while being read. -/
inductive FetchResult (α : Type) where
  | networkError : FetchResult α
  | response (ok : Bool) (body : Except Unit α) : FetchResult α
deriving DecidableEq

/-- The single user-facing error message set by the loader's `catch`. -/
def loadErrorMsg : String :=
  "Failed to load cameras (maybe CORS). Try a dev proxy or build-time fetch."

/-- A blank delimited-text row, as skipped by `Papa.parse` with
`skipEmptyLines: true` (an empty line tokenizes to `[]` or `[""]`). -/
def isBlankRow (r : List String) : Bool :=
  r = [] || r = [""]

/-- Model of `Papa.parse(text, { header: true, skipEmptyLines: true })` on
the already field-tokenized rows of the delimited text: blank rows are
skipped, the first remaining row provides the column headers, and every
later row is zipped with the headers into a key–value record. -/
def parseDelimited (rows : List (List String)) : List RawProps :=
  match rows.filter (fun r => !isBlankRow r) with
  | [] => []
  | header :: rest => rest.map fun r => header.zip r

/-- Lexicographic comparison of character lists, as JavaScript's default
`Array.prototype.sort` compares strings (pointwise by code unit). -/
def charListLe : List Char → List Char → Bool
  | [], _ => true
  | _ :: _, [] => false
  | a :: as, b :: bs => if a < b then true else if b < a then false else charListLe as bs

/-- Lexicographic string comparison used by the `.sort()` call. -/
def strLeb (a b : String) : Bool :=
  charListLe a.data b.data

/-- `Array.from(new Set(items.map(c => c.region))).sort()` from the loader:
the deduplicated region values in lexicographic order. -/
def regionsOf (items : List CameraRecord) : List String :=
  List.insertionSort (fun a b => strLeb a b = true) (items.map CameraRecord.region).dedup

/-- The camera records produced from the primary GeoJSON body:
`(gj.features || []).map(f => normalizeCamera({...p, lat, lon}))` with
`[lon, lat] = f.geometry?.coordinates || [undefined, undefined]`. -/
def camerasOfGeoJson (g : GeoJson) : List CameraRecord :=
  g.features.map fun f =>
    let coords := f.geometryCoords.getD []
    normalizeCamera f.properties coords[1]? coords[0]?

/-- The camera records produced from the fallback delimited-text body:
`parsed.data.map(row => normalizeCamera(row))`. -/
def camerasOfRows (rows : List (List String)) : List CameraRecord :=
  (parseDelimited rows).map fun r => normalizeCamera r none none

/-- The `load()` function inside `useCameras`, as a function of the two
fetch outcomes: try the GeoJSON endpoint; only on a non-`ok` status fall
back to the CSV endpoint; any thrown error (network failure, body that
fails to parse, or the explicit `throw` on a non-`ok` CSV status) is caught
and becomes the single error message. -/
def useCamerasLoad (gj : FetchResult GeoJson) (csv : FetchResult (List (List String))) :
    Except String (List CameraRecord × List String) :=
  match gj with
  | .networkError => .error loadErrorMsg
  | .response ok body =>
    if ok then
      match body with
      | .error _ => .error loadErrorMsg
      | .ok g =>
        let items := camerasOfGeoJson g
        .ok (items, regionsOf items)
    else
      match csv with
      | .networkError => .error loadErrorMsg
      | .response ok2 body2 =>
        if ok2 then
          match body2 with
          | .error _ => .error loadErrorMsg
          | .ok rows =>
            let items := camerasOfRows rows
            .ok (items, regionsOf items)
        else .error loadErrorMsg

/-! ## Filtering (`filtered` in `App`) -/

/-- The `filtered` memo in `App`: keep cameras matching the region filter
exactly (or all when it is unset), whose searchable haystack contains the
trimmed lowercased query (or all when it is empty), and which have a
non-empty source `url`. -/
def filtered (cameras : List CameraRecord) (region query : String) : List CameraRecord :=
  let q := jsToLower (jsTrim query)
  cameras.filter fun c =>
    let inRegion := region = "" || c.region = region
    let hay := jsToLower
      (c.nameEn ++ " " ++ c.nameFr ++ " " ++ c.route ++ " " ++ c.region ++ " " ++ c.bridge ++ " " ++ c.border)
    let qMatch := q = "" || strIncludes hay q
    inRegion && qMatch && !(c.url = "")

end Q511

namespace Q511

/-! ## Playback state machine (`MediaPane`) -/

/-- The `mode` state of `MediaPane` (`"hls" | "snap" | "jpg"`). -/
inductive PaneMode where
  | hls
  | snap
  | jpg
deriving DecidableEq, Repr

/-- The per-camera transient state of `MediaPane`: the mode, the cache-bust
`salt`, the `dead` flag, and the `timeInfo` load timestamp.  The spec's
playback states map onto it as: `live` = `hls` mode, `snapshot-primary` =
`snap` mode and not dead, `snapshot-alternate` = `jpg` mode and not dead,
`unavailable` = dead. -/
structure PaneState where
  mode : PaneMode
  salt : Nat
  dead : Bool
  timeInfo : Option Nat
deriving DecidableEq, Repr

/-- The spec state `snapshot-primary`. -/
def isSnapshotPrimary (s : PaneState) : Prop :=
  s.mode = .snap ∧ s.dead = false

/-- The spec state `snapshot-alternate`. -/
def isSnapshotAlternate (s : PaneState) : Prop :=
  s.mode = .jpg ∧ s.dead = false

/-- The spec state `unavailable`. -/
def isUnavailable (s : PaneState) : Prop :=
  s.dead = true

/-- The spec state `live`. -/
def isLive (s : PaneState) : Prop :=
  s.mode = .hls ∧ s.dead = false

/-- `onSnapError` from the source: already dead stays dead; a failure in
`snap` mode switches to the `jpg` alternate and stays alive; a failure in
any other mode marks the camera dead. -/
def onSnapError (s : PaneState) : PaneState :=
  if s.dead then s
  else if s.mode = .snap then { s with mode := .jpg }
  else { s with dead := true }

/-- The `Hls.Events.ERROR` handler (and the `catch` of the attach effect):
`setMode("snap"); setDead(false)` — degrade silently to snapshot polling. -/
def onHlsError (s : PaneState) : PaneState :=
  { s with mode := .snap, dead := false }

/-- One firing of the periodic snapshot-refresh interval: the effect body is
`setSalt(s => s + 1)`, and the interval only exists while not dead and in a
snapshot mode (`if (dead) return; if (mode !== "snap" && mode !== "jpg") return`). -/
def refreshTick (s : PaneState) : PaneState :=
  if s.dead then s
  else if s.mode = .snap ∨ s.mode = .jpg then { s with salt := s.salt + 1 }
  else s

/-- The snapshot-refresh interval period: `Math.max(500, refreshMs)`. -/
def refreshIntervalMs (refreshMs : Nat) : Nat :=
  max 500 refreshMs

/-- The camera-change reset effect of `MediaPane` (`if (!camera) return;`
then `setMode(live ? "hls" : "snap"); setTimeInfo(...); setSalt(0);
setDead(false)`). -/
def resetPane (live : Bool) (camera : Option CameraRecord) (s : PaneState) : PaneState :=
  match camera with
  | none => s
  | some _ =>
    { mode := if live then .hls else .snap
      salt := 0
      dead := false
      timeInfo := none }

/-- The events that can reach the per-camera state without a camera change:
an `<img>` `onError`, an `<img>` `onLoad` at some clock value, an HLS
attach/parse error, a snapshot-refresh tick, and a live-edge tick. -/
inductive PaneEvent where
  | imgError
  | imgLoad (t : Nat)
  | streamError
  | tick
  | liveTick
deriving DecidableEq, Repr

/-- One event step of `MediaPane`, with the render/effect guards of the
source: the `<img>` handlers only fire while the image is rendered
(`!live && !dead && (mode snap|jpg)`); the HLS error handler only while the
attach effect ran (`live && mode === "hls"` and an `m3u8` variant exists);
the refresh and live-edge intervals carry their own guards. -/
def paneStep (live hasStream : Bool) (e : PaneEvent) (s : PaneState) : PaneState :=
  match e with
  | .imgError =>
    if !live && !s.dead && (s.mode = .snap || s.mode = .jpg) then onSnapError s else s
  | .imgLoad t =>
    if !live && !s.dead && (s.mode = .snap || s.mode = .jpg) then
      if s.timeInfo = none then { s with timeInfo := some t } else s
    else s
  | .streamError =>
    if live && hasStream && s.mode = .hls then onHlsError s else s
  | .tick => refreshTick s
  | .liveTick =>
    if live && s.mode = .hls then { s with salt := s.salt + 1 } else s

/-! ## Shuffle (`useShuffle`) and slideshow driver -/

/-- `[arr[i], arr[j]] = [arr[j], arr[i]]`: exchange two positions of a list
(both indices are in bounds at every use in the shuffle loop). -/
def listSwap (l : List α) (i j : Nat) : List α :=
  match l[i]?, l[j]? with
  | some a, some b => (l.set i b).set j a
  | _, _ => l

/-- The Fisher–Yates loop `for (let i = arr.length - 1; i > 0; i--)`:
at index `i` the draw `Math.floor(Math.random() * (i + 1))` is modelled by
an arbitrary draw sequence `rand`, reduced into range `0..i`. -/
def fisherYatesLoop (rand : Nat → Nat) : List α → Nat → List α
  | l, 0 => l
  | l, i + 1 => fisherYatesLoop rand (listSwap l (i + 1) (rand (i + 1) % (i + 2))) i

/-- `useShuffle(list, enabled)` from the source: the list itself when
shuffle is off, otherwise a Fisher–Yates reordering of a copy. -/
def useShuffle (l : List α) (enabled : Bool) (rand : Nat → Nat) : List α :=
  if enabled then fisherYatesLoop rand l (l.length - 1) else l

/-- The dwell delay `Math.max(3, dwellSec) * 1000` (milliseconds). -/
def dwellDelayMs (dwellSec : Nat) : Nat :=
  max 3 dwellSec * 1000

/-- The auto-advance effect of `Slideshow`: no timer when paused or when no
current camera exists (`if (!playing || !current) return`), otherwise a
timeout of the clamped dwell delay. -/
def dwellTimer (playing : Bool) (len dwellSec : Nat) : Option Nat :=
  if playing && decide (0 < len) then some (dwellDelayMs dwellSec) else none

/-- `next` from `Slideshow`: `(i + 1) % Math.max(list.length, 1)`. -/
def nextIndex (len i : Nat) : Nat :=
  (i + 1) % max len 1

/-- `prev` from `Slideshow`: `(i - 1 + m) % m` with `m = Math.max(list.length, 1)`. -/
def prevIndex (len i : Nat) : Nat :=
  (i + max len 1 - 1) % max len 1

end Q511

namespace Q511

/-! ## Helper lemmas about the string model -/

theorem strStartsWith_append (u v : String) : strStartsWith (u ++ v) u := by
  simp [strStartsWith]

theorem strEndsWith_append (u v : String) : strEndsWith (u ++ v) v := by
  simp [strEndsWith]

theorem splitOnChar_ne_nil (c : Char) (l : List Char) : splitOnChar c l ≠ [] := by
  cases l with
  | nil => simp [splitOnChar]
  | cons x xs =>
    unfold splitOnChar
    cases h : splitOnChar c xs with
    | nil => simp
    | cons h t => by_cases hx : x = c <;> simp [hx]

theorem splitOnChar_no_sep (c : Char) (l : List Char) (h : c ∉ l) : splitOnChar c l = [l] := by
  induction l with
  | nil => rfl
  | cons x xs ih =>
    have hx : x ≠ c := fun hh => h (hh ▸ List.mem_cons_self x xs)
    have hxs : c ∉ xs := fun hh => h (List.mem_cons_of_mem _ hh)
    unfold splitOnChar
    rw [ih hxs]
    simp [hx]

theorem splitOnChar_append (c : Char) (a b : List Char) (hb : c ∉ b) :
    splitOnChar c (a ++ b) = (splitOnChar c a).dropLast ++ [(splitOnChar c a).getLastD [] ++ b] := by
  induction a with
  | nil => simp [splitOnChar, splitOnChar_no_sep c b hb]
  | cons x xs ih =>
    obtain ⟨h₂, t₂, hL⟩ : ∃ h t, splitOnChar c xs = h :: t := by
      cases hL : splitOnChar c xs with
      | nil => exact absurd hL (splitOnChar_ne_nil c xs)
      | cons h t => exact ⟨h, t, rfl⟩
    show splitOnChar c (x :: (xs ++ b)) = _
    unfold splitOnChar
    rw [ih, hL]
    by_cases hx : x = c
    · cases t₂ with
      | nil => simp [hx, hL]
      | cons y ys =>
        simp only [hx, if_true, hL]
        simp [List.getLastD_cons]
    · cases t₂ with
      | nil => simp [hx, hL]
      | cons y ys =>
        simp only [hx, if_false, hL]
        simp [List.getLastD_cons]

theorem lastPathSegment_append (s t : String) (ht : '/' ∉ t.data) :
    lastPathSegment (s ++ t) = lastPathSegment s ++ t := by
  unfold lastPathSegment
  rw [String.data_append, splitOnChar_append _ _ _ ht]
  rw [List.getLastD_eq_getLast?, List.getLast?_concat]
  rfl

theorem lastPathSegment_no_sep (s : String) (h : '/' ∉ s.data) : lastPathSegment s = s := by
  unfold lastPathSegment
  rw [splitOnChar_no_sep _ _ h]
  rfl

theorem str_eq_empty_iff (s : String) : s = "" ↔ s.data = [] :=
  ⟨fun h => by rw [h], fun h => String.ext h⟩

theorem append_ne_empty_left (a b : String) (ha : a ≠ "") : a ++ b ≠ "" := by
  intro h
  rw [str_eq_empty_iff, String.data_append, List.append_eq_nil] at h
  exact ha ((str_eq_empty_iff a).2 h.1)

theorem jsOr_ne_empty (a b : String) (hb : b ≠ "") : jsOr a b ≠ "" := by
  unfold jsOr
  by_cases ha : a = "" <;> simp [ha, hb]

theorem digitChar_mod10_isDigit (n : Nat) : (Nat.digitChar (n % 10)).isDigit = true := by
  have h : n % 10 < 10 := Nat.mod_lt _ (by norm_num)
  generalize n % 10 = m at h
  interval_cases m <;> decide

theorem toDigitsCore_all_digits (f n : Nat) (acc : List Char)
    (hacc : ∀ c ∈ acc, c.isDigit = true) :
    ∀ c ∈ Nat.toDigitsCore 10 f n acc, c.isDigit = true := by
  induction f generalizing n acc with
  | zero => simpa [Nat.toDigitsCore] using hacc
  | succ f ih =>
    unfold Nat.toDigitsCore
    by_cases h : n / 10 = 0
    · simp only [h, if_true]
      intro c hc
      rcases List.mem_cons.1 hc with rfl | hmem
      · exact digitChar_mod10_isDigit n
      · exact hacc c hmem
    · simp only [h, if_false]
      apply ih
      intro c hc
      rcases List.mem_cons.1 hc with rfl | hmem
      · exact digitChar_mod10_isDigit n
      · exact hacc c hmem

theorem natToString_all_digits (n : Nat) : ∀ c ∈ (toString n).data, c.isDigit = true := by
  show ∀ c ∈ (Nat.repr n).data, c.isDigit = true
  unfold Nat.repr Nat.toDigits
  intro c hc
  exact toDigitsCore_all_digits (n + 1) n [] (by simp) c hc

theorem isDigit_ne_slash_qmark (c : Char) (h : c.isDigit = true) : c ≠ '/' ∧ c ≠ '?' := by
  constructor <;> rintro rfl <;> simp [Char.isDigit] at h

/-- The `withSalt` closure appends `_rs=<salt>` behind `&` or `?` as the
source does: the original URL (its query string included) is a prefix of the
result, and the rendered counter is its suffix. -/
theorem withSalt_spec (salt : Nat) (u : String) (hu : u ≠ "") :
    strStartsWith (withSalt salt u) u ∧
    strEndsWith (withSalt salt u) ("_rs=" ++ toString salt) ∧
    ('?' ∉ u.data → withSalt salt u = u ++ "?_rs=" ++ toString salt) ∧
    ('?' ∈ u.data → withSalt salt u = u ++ "&_rs=" ++ toString salt) := by
  by_cases hq : '?' ∈ u.data
  · have he : withSalt salt u = u ++ "&_rs=" ++ toString salt := by
      simp [withSalt, hu, hq]
    have h2 : ("&_rs=" : String) = "&" ++ "_rs=" := by decide
    refine ⟨?_, ?_, fun h => absurd hq h, fun _ => he⟩
    · rw [he, String.append_assoc]; exact strStartsWith_append _ _
    · rw [he, String.append_assoc, h2, String.append_assoc, ← String.append_assoc]
      exact strEndsWith_append _ _
  · have he : withSalt salt u = u ++ "?_rs=" ++ toString salt := by
      simp [withSalt, hu, hq]
    have h2 : ("?_rs=" : String) = "?" ++ "_rs=" := by decide
    refine ⟨?_, ?_, fun _ => he, fun h => absurd h hq⟩
    · rw [he, String.append_assoc]; exact strStartsWith_append _ _
    · rw [he, String.append_assoc, h2, String.append_assoc, ← String.append_assoc]
      exact strEndsWith_append _ _

end Q511

namespace Q511

/-! ## Lemmas about `buildVariants` -/

theorem extractId_of_empty_url : extractIdFromFenetre "" = "" := by decide

theorem url_ne_empty_of_id {c : CameraRecord} (hid : extractIdFromFenetre c.url ≠ "") :
    c.url ≠ "" := fun h => hid (by rw [h]; exact extractId_of_empty_url)

/-- Unfolding of a successful `buildVariants` call: the id was extracted and
each field is the salted form of its base URL. -/
theorem buildVariants_eq_some {c : CameraRecord} {salt : Nat} {v : MediaVariants}
    (h : buildVariants c salt = some v) :
    extractIdFromFenetre c.url ≠ "" ∧
    v = { id := extractIdFromFenetre c.url
          snap := withSalt salt (jsOr c.imgDirect
            (ORIGIN ++ "/Images/Cameras/Quebec/cam/" ++ extractIdFromFenetre c.url ++ ".jpg"))
          jpg := withSalt salt
            (ORIGIN ++ "/Carte/Fenetres/camera.ashx?id=" ++ extractIdFromFenetre c.url ++ "&format=jpg")
          m3u8 := withSalt salt
            (ORIGIN ++ "/Carte/Fenetres/camera.ashx?id=" ++ extractIdFromFenetre c.url ++ "&format=m3u8")
          html := withSalt salt c.url } := by
  unfold buildVariants at h
  by_cases hid : extractIdFromFenetre c.url = "" <;> simp [hid] at h
  exact ⟨hid, h.symm⟩

theorem ORIGIN_ne_empty : (ORIGIN : String) ≠ "" := by decide

/-- Every URL derived by `buildVariants` carries the cache-bust counter
verbatim as its trailing `_rs` parameter. -/
theorem buildVariants_salt_trailing {c : CameraRecord} {salt : Nat} {v : MediaVariants}
    (h : buildVariants c salt = some v) :
    strEndsWith v.snap ("_rs=" ++ toString salt) ∧
    strEndsWith v.jpg ("_rs=" ++ toString salt) ∧
    strEndsWith v.m3u8 ("_rs=" ++ toString salt) ∧
    strEndsWith v.html ("_rs=" ++ toString salt) := by
  obtain ⟨hid, rfl⟩ := buildVariants_eq_some h
  have hurl : c.url ≠ "" := url_ne_empty_of_id hid
  refine ⟨?_, ?_, ?_, ?_⟩
  · exact (withSalt_spec salt _ (jsOr_ne_empty _ _
      (append_ne_empty_left _ _ (append_ne_empty_left _ _
        (append_ne_empty_left _ _ ORIGIN_ne_empty))))).2.1
  · exact (withSalt_spec salt _ (append_ne_empty_left _ _ (append_ne_empty_left _ _
      (append_ne_empty_left _ _ ORIGIN_ne_empty)))).2.1
  · exact (withSalt_spec salt _ (append_ne_empty_left _ _ (append_ne_empty_left _ _
      (append_ne_empty_left _ _ ORIGIN_ne_empty)))).2.1
  · exact (withSalt_spec salt _ hurl).2.1

/-! ## Concrete fixtures used by witnesses and counterexamples -/

/-- A camera as in the spec's scenario: viewer URL `.../camera.ashx?id=42`,
no direct image URL. -/
def cam42 : CameraRecord :=
  { id := "2001", number := "", nameFr := "", nameEn := "", since := "", route := ""
    region := "Outaouais", border := "", bridge := ""
    url := "https://www.quebec511.info/Carte/Fenetres/camera.ashx?id=42"
    imgDirect := "", lat := none, lon := none }

/-- The variants of `cam42` at salt 0. -/
def cam42v0 : MediaVariants :=
  { id := "42"
    snap := "https://www.quebec511.info/Images/Cameras/Quebec/cam/42.jpg?_rs=0"
    jpg := "https://www.quebec511.info/Carte/Fenetres/camera.ashx?id=42&format=jpg&_rs=0"
    m3u8 := "https://www.quebec511.info/Carte/Fenetres/camera.ashx?id=42&format=m3u8&_rs=0"
    html := "https://www.quebec511.info/Carte/Fenetres/camera.ashx?id=42&_rs=0" }

/-- The variants of `cam42` at salt 1. -/
def cam42v1 : MediaVariants :=
  { id := "42"
    snap := "https://www.quebec511.info/Images/Cameras/Quebec/cam/42.jpg?_rs=1"
    jpg := "https://www.quebec511.info/Carte/Fenetres/camera.ashx?id=42&format=jpg&_rs=1"
    m3u8 := "https://www.quebec511.info/Carte/Fenetres/camera.ashx?id=42&format=m3u8&_rs=1"
    html := "https://www.quebec511.info/Carte/Fenetres/camera.ashx?id=42&_rs=1" }

/-- The variants of `cam42` at salt 4. -/
def cam42v4 : MediaVariants :=
  { id := "42"
    snap := "https://www.quebec511.info/Images/Cameras/Quebec/cam/42.jpg?_rs=4"
    jpg := "https://www.quebec511.info/Carte/Fenetres/camera.ashx?id=42&format=jpg&_rs=4"
    m3u8 := "https://www.quebec511.info/Carte/Fenetres/camera.ashx?id=42&format=m3u8&_rs=4"
    html := "https://www.quebec511.info/Carte/Fenetres/camera.ashx?id=42&_rs=4" }

end Q511

namespace Q511

/-! ## Claim theorems: playback state machine and URL derivation -/

/-- Claim C1: for every camera, starting in `snapshot-primary` (mode `snap`,
not dead), one image load failure moves to `snapshot-alternate` (mode `jpg`),
a second failure moves to `unavailable` (dead), and from `unavailable` no
event of the pane (image error/load, stream error, refresh or live-edge
tick) changes the state — only a camera change can. -/
theorem claim_snap_failure_chain (salt : Nat) (ti : Option Nat) (live hasStream : Bool) :
    isSnapshotPrimary ⟨.snap, salt, false, ti⟩ ∧
    isSnapshotAlternate (onSnapError ⟨.snap, salt, false, ti⟩) ∧
    isUnavailable (onSnapError (onSnapError ⟨.snap, salt, false, ti⟩)) ∧
    ∀ e : PaneEvent, paneStep live hasStream e (onSnapError (onSnapError ⟨.snap, salt, false, ti⟩)) =
      onSnapError (onSnapError ⟨.snap, salt, false, ti⟩) := by
  have h1 : onSnapError ⟨.snap, salt, false, ti⟩ = ⟨.jpg, salt, false, ti⟩ := by
    simp [onSnapError]
  have h2 : onSnapError (⟨.jpg, salt, false, ti⟩ : PaneState) = ⟨.jpg, salt, true, ti⟩ := by
    simp [onSnapError]
  refine ⟨⟨rfl, rfl⟩, ?_, ?_, ?_⟩
  · rw [h1]; exact ⟨rfl, rfl⟩
  · rw [h1, h2]; rfl
  · intro e
    rw [h1, h2]
    cases e <;> simp [paneStep, refreshTick, onHlsError]

/-- Claim C2: for a camera whose viewer URL yields a (numeric) id and with
no `imgDirect`, the snapshot-primary URL is the constructed path whose final
path segment contains the id, ending with the trailing `_rs=<salt>`
parameter; with a non-empty `imgDirect` that URL is used instead; and every
derived URL gets the salt appended while keeping its base (existing query
string included) as a prefix. -/
theorem claim_snapshot_primary_url (c : CameraRecord) (n : Nat) (id : String)
    (hid : extractIdFromFenetre c.url = id) (hne : id ≠ "")
    (hdig : ∀ ch ∈ id.data, ch.isDigit = true) :
    ∃ v, buildVariants c n = some v ∧
      (c.imgDirect = "" →
        v.snap = ORIGIN ++ "/Images/Cameras/Quebec/cam/" ++ id ++ ".jpg" ++ "?_rs=" ++ toString n ∧
        strContainsSub (lastPathSegment v.snap) id) ∧
      (c.imgDirect ≠ "" → v.snap = withSalt n c.imgDirect ∧ strStartsWith v.snap c.imgDirect) ∧
      strEndsWith v.snap ("_rs=" ++ toString n) ∧
      strEndsWith v.jpg ("_rs=" ++ toString n) ∧
      strEndsWith v.m3u8 ("_rs=" ++ toString n) ∧
      strEndsWith v.html ("_rs=" ++ toString n) ∧
      strStartsWith v.html c.url := by
  subst hid
  have hv : buildVariants c n = some
      { id := extractIdFromFenetre c.url
        snap := withSalt n (jsOr c.imgDirect
          (ORIGIN ++ "/Images/Cameras/Quebec/cam/" ++ extractIdFromFenetre c.url ++ ".jpg"))
        jpg := withSalt n
          (ORIGIN ++ "/Carte/Fenetres/camera.ashx?id=" ++ extractIdFromFenetre c.url ++ "&format=jpg")
        m3u8 := withSalt n
          (ORIGIN ++ "/Carte/Fenetres/camera.ashx?id=" ++ extractIdFromFenetre c.url ++ "&format=m3u8")
        html := withSalt n c.url } := by
    unfold buildVariants
    simp [hne]
  refine ⟨_, hv, ?_, ?_, ?_⟩
  · intro himg
    have hbase : (ORIGIN ++ "/Images/Cameras/Quebec/cam/" ++ extractIdFromFenetre c.url ++ ".jpg") ≠ "" :=
      append_ne_empty_left _ _ (append_ne_empty_left _ _ (append_ne_empty_left _ _ ORIGIN_ne_empty))
    have hq : '?' ∉ (ORIGIN ++ "/Images/Cameras/Quebec/cam/" ++ extractIdFromFenetre c.url ++ ".jpg").data := by
      intro hmem
      simp only [String.data_append, List.mem_append] at hmem
      rcases hmem with ((h | h) | h) | h
      · exact absurd h (by decide)
      · exact absurd h (by decide)
      · exact (isDigit_ne_slash_qmark _ (hdig _ h)).2 rfl
      · exact absurd h (by decide)
    have hsnap : withSalt n (jsOr c.imgDirect
        (ORIGIN ++ "/Images/Cameras/Quebec/cam/" ++ extractIdFromFenetre c.url ++ ".jpg")) =
        ORIGIN ++ "/Images/Cameras/Quebec/cam/" ++ extractIdFromFenetre c.url ++ ".jpg" ++ "?_rs=" ++ toString n := by
      rw [himg]
      show withSalt n (jsOr "" _) = _
      rw [show ∀ b, jsOr "" b = b from fun b => by simp [jsOr]]
      exact (withSalt_spec n _ hbase).2.2.1 hq
    refine ⟨hsnap, ?_⟩
    have hT : '/' ∉ ((extractIdFromFenetre c.url) ++ (".jpg" ++ ("?_rs=" ++ toString n))).data := by
      intro hmem
      simp only [String.data_append, List.mem_append] at hmem
      rcases hmem with h | h | h | h
      · exact (isDigit_ne_slash_qmark _ (hdig _ h)).1 rfl
      · exact absurd h (by decide)
      · exact absurd h (by decide)
      · exact (isDigit_ne_slash_qmark _ (natToString_all_digits n _ h)).1 rfl
    have hsnap2 : withSalt n (jsOr c.imgDirect
        (ORIGIN ++ "/Images/Cameras/Quebec/cam/" ++ extractIdFromFenetre c.url ++ ".jpg")) =
        (ORIGIN ++ "/Images/Cameras/Quebec/cam/") ++
          ((extractIdFromFenetre c.url) ++ (".jpg" ++ ("?_rs=" ++ toString n))) := by
      rw [hsnap]
      simp only [String.append_assoc]
    show strContainsSub (lastPathSegment _) _
    rw [hsnap2, lastPathSegment_append _ _ hT]
    have hP : lastPathSegment (ORIGIN ++ "/Images/Cameras/Quebec/cam/") = "" := by decide
    rw [hP]
    show (extractIdFromFenetre c.url).data <:+: ("" ++ _ : String).data
    rw [String.data_append]
    exact ⟨[], (".jpg" ++ ("?_rs=" ++ toString n)).data, by simp [String.data_append]⟩
  · intro himg
    have : jsOr c.imgDirect
        (ORIGIN ++ "/Images/Cameras/Quebec/cam/" ++ extractIdFromFenetre c.url ++ ".jpg") = c.imgDirect := by
      simp [jsOr, himg]
    refine ⟨by rw [this], ?_⟩
    show strStartsWith (withSalt n (jsOr _ _)) _
    rw [this]
    exact (withSalt_spec n _ himg).1
  · have := buildVariants_salt_trailing hv
    exact ⟨this.1, this.2.1, this.2.2.1, this.2.2.2,
      (withSalt_spec n c.url (url_ne_empty_of_id hne)).1⟩

/-- Witness for claim C2 at the spec's scenario: `.../camera.ashx?id=42`,
no `imgDirect`, at salt 0 and salt 1. -/
theorem claim_snapshot_primary_url_witness :
    buildVariants cam42 0 = some cam42v0 ∧
    cam42v0.snap = ORIGIN ++ "/Images/Cameras/Quebec/cam/" ++ "42" ++ ".jpg" ++ "?_rs=" ++ toString 0 ∧
    strContainsSub (lastPathSegment cam42v0.snap) "42" ∧
    strEndsWith cam42v0.snap ("_rs=" ++ toString 0) ∧
    buildVariants cam42 1 = some cam42v1 ∧
    strEndsWith cam42v1.snap ("_rs=" ++ toString 1) := by
  have hv0 : buildVariants cam42 0 = some cam42v0 := by decide
  have hv1 : buildVariants cam42 1 = some cam42v1 := by decide
  obtain ⟨v, hv, hA, _, hS, _⟩ :=
    claim_snapshot_primary_url cam42 0 "42" (by decide) (by decide) (by decide)
  obtain ⟨w, hw, _, _, hS1, _⟩ :=
    claim_snapshot_primary_url cam42 1 "42" (by decide) (by decide) (by decide)
  have hveq : v = cam42v0 := Option.some.inj (hv.symm.trans hv0)
  have hweq : w = cam42v1 := Option.some.inj (hw.symm.trans hv1)
  subst hveq hweq
  obtain ⟨hsnap, hseg⟩ := hA rfl
  exact ⟨hv0, hsnap, hseg, hS, hv1, hS1⟩

/-- Claim C5: whenever the active camera changes, the pane state is reset to
the initial mode (`hls` when the global live toggle is on, else `snap`), the
cache-bust counter is zeroed, and the dead flag is cleared — whatever the
previous camera's state was. -/
theorem claim_camera_switch_resets (live : Bool) (c : CameraRecord) (s : PaneState) :
    (resetPane live (some c) s).mode = (if live then PaneMode.hls else PaneMode.snap) ∧
    (resetPane live (some c) s).salt = 0 ∧
    (resetPane live (some c) s).dead = false :=
  ⟨rfl, rfl, rfl⟩

/-- Claim C7: from the `live` state, a stream attach/parse error moves the
machine to `snapshot-primary` with the dead flag cleared — never to
`unavailable` — and the pane surfaces no error (the handler only calls
`setMode`/`setDead`). -/
theorem claim_hls_error_degrades (s : PaneState) (h : isLive s) :
    paneStep true true .streamError s = onHlsError s ∧
    isSnapshotPrimary (onHlsError s) ∧
    ¬ isUnavailable (onHlsError s) ∧
    (onHlsError s).salt = s.salt := by
  obtain ⟨hm, hd⟩ := h
  refine ⟨by simp [paneStep, hm], ⟨rfl, rfl⟩, by simp [isUnavailable, onHlsError], rfl⟩

/-- Witness for claim C7 at a concrete live state. -/
theorem claim_hls_error_degrades_witness :
    isLive ⟨.hls, 5, false, none⟩ ∧
    (paneStep true true .streamError ⟨.hls, 5, false, none⟩ = onHlsError ⟨.hls, 5, false, none⟩ ∧
     isSnapshotPrimary (onHlsError ⟨.hls, 5, false, none⟩) ∧
     ¬ isUnavailable (onHlsError ⟨.hls, 5, false, none⟩) ∧
     (onHlsError (⟨.hls, 5, false, none⟩ : PaneState)).salt = 5) :=
  ⟨by constructor <;> rfl, claim_hls_error_degrades ⟨.hls, 5, false, none⟩ (by constructor <;> rfl)⟩

/-- Claim C8: in a snapshot mode and not dead, a refresh tick increments the
cache-bust counter by exactly one without changing the mode or dead flag,
the interval period is the refresh setting clamped below at 500 ms, and the
new counter value trails every URL derived at it. -/
theorem claim_refresh_tick (s : PaneState) (r : Nat)
    (hd : s.dead = false) (hm : s.mode = .snap ∨ s.mode = .jpg) :
    (refreshTick s).salt = s.salt + 1 ∧
    (refreshTick s).mode = s.mode ∧
    (refreshTick s).dead = s.dead ∧
    refreshIntervalMs r = max 500 r ∧
    ∀ (c : CameraRecord) (v : MediaVariants), buildVariants c (refreshTick s).salt = some v →
      strEndsWith v.snap ("_rs=" ++ toString (s.salt + 1)) ∧
      strEndsWith v.jpg ("_rs=" ++ toString (s.salt + 1)) ∧
      strEndsWith v.m3u8 ("_rs=" ++ toString (s.salt + 1)) ∧
      strEndsWith v.html ("_rs=" ++ toString (s.salt + 1)) := by
  have ht : refreshTick s = { s with salt := s.salt + 1 } := by
    simp [refreshTick, hd, hm]
  refine ⟨by rw [ht], by rw [ht], by rw [ht], rfl, ?_⟩
  intro c v hv
  rw [ht] at hv
  exact buildVariants_salt_trailing hv

/-- Witness for claim C8 at a concrete snapshot-primary state and camera. -/
theorem claim_refresh_tick_witness :
    (⟨PaneMode.snap, 3, false, none⟩ : PaneState).dead = false ∧
    ((⟨PaneMode.snap, 3, false, none⟩ : PaneState).mode = PaneMode.snap ∨
      (⟨PaneMode.snap, 3, false, none⟩ : PaneState).mode = PaneMode.jpg) ∧
    (refreshTick ⟨PaneMode.snap, 3, false, none⟩).salt = 3 + 1 ∧
    refreshIntervalMs 100 = max 500 100 ∧
    strEndsWith cam42v4.snap ("_rs=" ++ toString (3 + 1)) ∧
    strEndsWith cam42v4.jpg ("_rs=" ++ toString (3 + 1)) ∧
    strEndsWith cam42v4.m3u8 ("_rs=" ++ toString (3 + 1)) ∧
    strEndsWith cam42v4.html ("_rs=" ++ toString (3 + 1)) := by
  have h := claim_refresh_tick ⟨PaneMode.snap, 3, false, none⟩ 100 rfl (Or.inl rfl)
  have hu := h.2.2.2.2 cam42 cam42v4 (by decide)
  exact ⟨rfl, Or.inl rfl, h.1, h.2.2.2.1, hu.1, hu.2.1, hu.2.2.1, hu.2.2.2⟩

/-- Claim C10: with a non-empty playing list the auto-advance timeout is
`max(3, dwellSec)` seconds (values below 3 are clamped), and advancing moves
the index circularly modulo the list length. -/
theorem claim_dwell_clamped_circular (d i len : Nat) (h : 0 < len) :
    dwellTimer true len d = some (max 3 d * 1000) ∧
    nextIndex len i = (i + 1) % len ∧
    nextIndex len i < len ∧
    nextIndex len (len - 1) = 0 := by
  have hm : max len 1 = len := by omega
  refine ⟨by simp [dwellTimer, h, dwellDelayMs], by simp [nextIndex, hm], ?_, ?_⟩
  · simp only [nextIndex, hm]; exact Nat.mod_lt _ h
  · simp only [nextIndex, hm]
    rw [Nat.sub_add_cancel h]
    exact Nat.mod_self len

/-- Witness for claim C10 with a two-element list and a sub-minimum dwell. -/
theorem claim_dwell_clamped_circular_witness :
    0 < 2 ∧
    (dwellTimer true 2 1 = some (max 3 1 * 1000) ∧
     nextIndex 2 1 = (1 + 1) % 2 ∧
     nextIndex 2 1 < 2 ∧
     nextIndex 2 (2 - 1) = 0) :=
  ⟨by decide, claim_dwell_clamped_circular 1 1 2 (by decide)⟩

end Q511

namespace Q511

/-! ## Fisher-Yates shuffle is a permutation -/

theorem count_set_add {α : Type} [DecidableEq α] (l : List α) (n : Nat) (c x : α)
    (h : n < l.length) :
    (l.set n c).count x + (if l[n] = x then 1 else 0) = l.count x + (if c = x then 1 else 0) := by
  induction l generalizing n with
  | nil => simp at h
  | cons a t ih =>
    cases n with
    | zero =>
      simp only [List.set_cons_zero, List.getElem_cons_zero, List.count_cons]
      by_cases hc : c = x <;> by_cases ha : a = x <;> simp [hc, ha]
    | succ m =>
      have hm : m < t.length := by simpa using h
      simp only [List.set_cons_succ, List.getElem_cons_succ, List.count_cons]
      have := ih m hm
      by_cases ha : a = x <;> simp [ha] <;> omega

theorem listSwap_perm {α : Type} (l : List α) (i j : Nat) : List.Perm (listSwap l i j) l := by
  classical
  unfold listSwap
  cases hi : l[i]? with
  | none => exact List.Perm.refl l
  | some a =>
    cases hj : l[j]? with
    | none => exact List.Perm.refl l
    | some b =>
      obtain ⟨hil, hia⟩ := List.getElem?_eq_some_iff.1 hi
      obtain ⟨hjl, hjb⟩ := List.getElem?_eq_some_iff.1 hj
      rw [List.perm_iff_count]
      intro x
      have hjl2 : j < (l.set i b).length := by simpa using hjl
      have e1 := count_set_add l i b x hil
      have e2 := count_set_add (l.set i b) j a x hjl2
      have hsetj : (l.set i b)[j] = b := by
        by_cases hij : i = j
        · subst hij; simp [List.getElem_set_self]
        · rw [List.getElem_set_ne (by omega)]
          exact hjb
      rw [hsetj] at e2
      rw [hia] at e1
      by_cases hax : a = x <;> by_cases hbx : b = x <;> simp [hax, hbx] at e1 e2 ⊢ <;> omega

theorem fisherYatesLoop_perm {α : Type} (rand : Nat → Nat) (l : List α) (i : Nat) :
    List.Perm (fisherYatesLoop rand l i) l := by
  induction i generalizing l with
  | zero => exact List.Perm.refl l
  | succ k ih =>
    exact (ih _).trans (listSwap_perm l (k + 1) (rand (k + 1) % (k + 2)))

theorem useShuffle_perm {α : Type} (rand : Nat → Nat) (enabled : Bool) (l : List α) :
    List.Perm (useShuffle l enabled rand) l := by
  unfold useShuffle
  cases enabled with
  | false => exact List.Perm.refl l
  | true => simpa using fisherYatesLoop_perm rand l (l.length - 1)

/-- Claim C9: with shuffle enabled, `useShuffle` returns a permutation of
its input for every list and every draw sequence — the multiset of camera
ids is unchanged. -/
theorem claim_shuffle_permutation (rand : Nat → Nat) (l : List CameraRecord) :
    ((useShuffle l true rand).map CameraRecord.id : Multiset String) =
      (l.map CameraRecord.id : Multiset String) := by
  rw [Multiset.coe_eq_coe]
  exact (useShuffle_perm rand true l).map CameraRecord.id

end Q511

namespace Q511

/-! ## The lexicographic comparator is total and transitive -/

theorem charListLe_total (l m : List Char) : charListLe l m = true ∨ charListLe m l = true := by
  induction l generalizing m with
  | nil => left; rfl
  | cons a as ih =>
    cases m with
    | nil => right; rfl
    | cons b bs =>
      by_cases hab : a < b
      · left; simp [charListLe, hab]
      · by_cases hba : b < a
        · right; simp [charListLe, hba, hab]
        · have hab2 : ¬ b < a := hba
          rcases ih bs with h | h
          · left; simp [charListLe, hab, hba, h]
          · right; simp [charListLe, hab, hba, h]

theorem charListLe_trans (l m n : List Char)
    (h1 : charListLe l m = true) (h2 : charListLe m n = true) : charListLe l n = true := by
  induction l generalizing m n with
  | nil => rfl
  | cons a as ih =>
    cases m with
    | nil => simp [charListLe] at h1
    | cons b bs =>
      cases n with
      | nil => simp [charListLe] at h2
      | cons c cs =>
        by_cases hab : a < b <;> by_cases hbc : b < c
        · have hac : a < c := lt_trans hab hbc
          simp [charListLe, hac]
        · by_cases hcb : c < b
          · simp [charListLe, hbc, hcb] at h2
          · have hbc2 : b = c := le_antisymm (not_lt.1 hcb) (not_lt.1 hbc)
            subst hbc2
            simp [charListLe, hab]
        · by_cases hba : b < a
          · simp [charListLe, hab, hba] at h1
          · have hab2 : a = b := le_antisymm (not_lt.1 hba) (not_lt.1 hab)
            subst hab2
            simp [charListLe, hbc]
        · by_cases hba : b < a
          · simp [charListLe, hab, hba] at h1
          · by_cases hcb : c < b
            · simp [charListLe, hbc, hcb] at h2
            · have hab2 : a = b := le_antisymm (not_lt.1 hba) (not_lt.1 hab)
              have hbc2 : b = c := le_antisymm (not_lt.1 hcb) (not_lt.1 hbc)
              subst hab2; subst hbc2
              simp only [charListLe, lt_irrefl, if_false] at h1 h2 ⊢
              exact ih _ _ h1 h2

instance : IsTotal String (fun a b => strLeb a b = true) :=
  ⟨fun a b => charListLe_total a.data b.data⟩

instance : IsTrans String (fun a b => strLeb a b = true) :=
  ⟨fun a b c => charListLe_trans a.data b.data c.data⟩

end Q511

namespace Q511

/-! ## Claim theorems: feed loading and filtering -/

/-- A camera record whose `url` is non-empty but carries no `id` query
parameter (used against claim C3). -/
def camNoId : CameraRecord :=
  { id := "9", number := "", nameFr := "", nameEn := "", since := "", route := ""
    region := "Outaouais", border := "", bridge := ""
    url := "https://x.test/cam.ashx", imgDirect := "", lat := none, lon := none }

/-- A valid GeoJSON body producing exactly `camNoId`. -/
def gjNoId : GeoJson :=
  ⟨[⟨[("IDEcamera", "9"), ("NomRegionDiffusion", "Outaouais"),
      ("URL_FLUX_DONNEE", "https://x.test/cam.ashx")], none⟩]⟩

/-- Claim C3 counterexample: a record produced by a valid feed response
whose `url` is non-empty but yields no derivable id is NOT excluded from
the playable (filtered) set — the filter only checks `!!c.url` — even
though `buildVariants` can produce nothing for it. -/
theorem claim_filtered_id_cex :
    useCamerasLoad (.response true (.ok gjNoId)) .networkError = .ok ([camNoId], ["Outaouais"]) ∧
    filtered [camNoId] "" "" = [camNoId] ∧
    extractIdFromFenetre camNoId.url = "" ∧
    buildVariants camNoId 0 = none :=
  ⟨by decide, by decide, by decide, by decide⟩

/-- Claim C3 (amended): every record in the filtered (playable) set comes
from the input list and has a non-empty source `url`; derivability of an id
from that url is not checked by the filter. -/
theorem claim_filtered_members_have_url (cams : List CameraRecord) (region query : String)
    (c : CameraRecord) (h : c ∈ filtered cams region query) :
    c ∈ cams ∧ c.url ≠ "" := by
  unfold filtered at h
  have hmf := List.mem_filter.1 h
  refine ⟨hmf.1, ?_⟩
  have hb := hmf.2
  simp only [Bool.and_eq_true, Bool.not_eq_true', decide_eq_false_iff_not] at hb
  exact hb.2

/-- Witness for the amended claim C3 at a concrete filtered list. -/
theorem claim_filtered_members_have_url_witness :
    cam42 ∈ filtered [cam42] "" "" ∧ (cam42 ∈ [cam42] ∧ cam42.url ≠ "") :=
  ⟨by decide, claim_filtered_members_have_url [cam42] "" "" cam42 (by decide)⟩

/-- The delimited-text header row used by the C4 fixtures. -/
def csvHeader : List String := ["NomRegionDiffusion", "URL_FLUX_DONNEE"]

/-- One well-formed delimited-text data row. -/
def csvDataRows : List (List String) :=
  [["Outaouais", "https://www.quebec511.info/Carte/Fenetres/camera.ashx?id=42"]]

/-- A well-formed delimited-text body. -/
def csvRowsGood : List (List String) := csvHeader :: csvDataRows

/-- A successful fetch of the well-formed delimited-text body. -/
def csvGood : FetchResult (List (List String)) := .response true (.ok csvRowsGood)

/-- The camera produced from `csvRowsGood`. -/
def camCsv : CameraRecord :=
  { id := "", number := "", nameFr := "", nameEn := "", since := "", route := ""
    region := "Outaouais", border := "", bridge := ""
    url := "https://www.quebec511.info/Carte/Fenetres/camera.ashx?id=42"
    imgDirect := "", lat := none, lon := none }

/-- Claim C4 counterexample: with a perfectly good delimited-text feed
available, a malformed (unparseable) 200 response of the primary feed, or a
network error on it, surfaces the error WITHOUT falling back — only a
non-2xx status triggers the fallback (which does succeed, third conjunct). -/
theorem claim_fallback_cex :
    useCamerasLoad (.response true (.error ())) csvGood = .error loadErrorMsg ∧
    useCamerasLoad .networkError csvGood = .error loadErrorMsg ∧
    useCamerasLoad (.response false (.ok ⟨[]⟩)) csvGood = .ok ([camCsv], ["Outaouais"]) ∧
    (Except.error loadErrorMsg : Except String (List CameraRecord × List String)) ≠
      .ok ([camCsv], ["Outaouais"]) :=
  ⟨by decide, by decide, by decide, by decide⟩

/-- Claim C4 (amended): the loader falls back to the delimited-text feed
exactly when the primary request completes with a non-2xx status; a network
error or a malformed 200 body surfaces the error without trying the
fallback.  The fallback parse treats the first (non-blank) row as headers
and skips blank rows. -/
theorem claim_fallback_only_non2xx :
    (∀ csv : FetchResult (List (List String)),
      useCamerasLoad .networkError csv = .error loadErrorMsg) ∧
    (∀ csv : FetchResult (List (List String)),
      useCamerasLoad (.response true (.error ())) csv = .error loadErrorMsg) ∧
    (∀ (b : Except Unit GeoJson) (rows : List (List String)),
      useCamerasLoad (.response false b) (.response true (.ok rows)) =
        .ok (camerasOfRows rows, regionsOf (camerasOfRows rows))) ∧
    (∀ rows : List (List String),
      parseDelimited rows = parseDelimited (rows.filter fun r => !isBlankRow r)) ∧
    (∀ (h : List String) (t : List (List String)), isBlankRow h = false →
      parseDelimited (h :: t) = (t.filter fun r => !isBlankRow r).map fun r => h.zip r) := by
  refine ⟨fun csv => rfl, fun csv => rfl, fun b rows => rfl, ?_, ?_⟩
  · intro rows
    unfold parseDelimited
    rw [List.filter_filter]
    simp [Bool.and_self]
  · intro h t hb
    unfold parseDelimited
    simp [List.filter_cons, hb]

/-- Witness for the amended claim C4 at the concrete fixtures. -/
theorem claim_fallback_only_non2xx_witness :
    useCamerasLoad .networkError csvGood = .error loadErrorMsg ∧
    useCamerasLoad (.response true (.error ())) csvGood = .error loadErrorMsg ∧
    useCamerasLoad (.response false (.ok ⟨[]⟩)) (.response true (.ok csvRowsGood)) =
      .ok (camerasOfRows csvRowsGood, regionsOf (camerasOfRows csvRowsGood)) ∧
    parseDelimited ([] :: csvRowsGood) =
      parseDelimited (([] :: csvRowsGood).filter fun r => !isBlankRow r) ∧
    isBlankRow csvHeader = false ∧
    parseDelimited (csvHeader :: csvDataRows) =
      (csvDataRows.filter fun r => !isBlankRow r).map fun r => csvHeader.zip r := by
  have h := claim_fallback_only_non2xx
  exact ⟨h.1 csvGood, h.2.1 csvGood, h.2.2.1 (.ok ⟨[]⟩) csvRowsGood,
    h.2.2.2.1 ([] :: csvRowsGood), by decide,
    h.2.2.2.2 csvHeader csvDataRows (by decide)⟩

/-- Modelled from the spec's words, for comparison with the code's
`regionsOf`: the deduplicated, lexicographically sorted set of the
NON-EMPTY region values. -/
def regionsSpec (items : List CameraRecord) : List String :=
  List.insertionSort (fun a b => strLeb a b = true)
    ((items.map CameraRecord.region).filter (· ≠ "")).dedup

/-- A feature with a region value. -/
def featReg : GeoFeature :=
  ⟨[("NomRegionDiffusion", "Outaouais"), ("URL_FLUX_DONNEE", "https://x.test/a.ashx?id=1")], none⟩

/-- A feature without a region value (normalizes to the empty string). -/
def featNoReg : GeoFeature :=
  ⟨[("URL_FLUX_DONNEE", "https://x.test/b.ashx?id=2")], none⟩

/-- A valid GeoJSON body with one region-less record. -/
def gjRegions : GeoJson := ⟨[featReg, featNoReg]⟩

/-- The camera produced from `featReg`. -/
def camReg : CameraRecord :=
  { id := "", number := "", nameFr := "", nameEn := "", since := "", route := ""
    region := "Outaouais", border := "", bridge := ""
    url := "https://x.test/a.ashx?id=1", imgDirect := "", lat := none, lon := none }

/-- The camera produced from `featNoReg` (empty region). -/
def camNoReg : CameraRecord :=
  { id := "", number := "", nameFr := "", nameEn := "", since := "", route := ""
    region := "", border := "", bridge := ""
    url := "https://x.test/b.ashx?id=2", imgDirect := "", lat := none, lon := none }

/-- Claim C6 counterexample: a successful feed load with a region-less
record produces a regions list containing the empty string, which differs
from the spec's "non-empty region values only" list. -/
theorem claim_regions_cex :
    useCamerasLoad (.response true (.ok gjRegions)) .networkError =
      .ok ([camReg, camNoReg], ["", "Outaouais"]) ∧
    regionsSpec [camReg, camNoReg] = ["Outaouais"] ∧
    ("" : String) ∈ (["", "Outaouais"] : List String) ∧
    (["", "Outaouais"] : List String) ≠ ["Outaouais"] :=
  ⟨by decide, by decide, by decide, by decide⟩

/-- Claim C6 (amended): for every successful feed load (from either
endpoint) the produced regions list is the deduplicated, lexicographically
sorted list of ALL region values of the loaded records — the empty string
included when some record lacks a region. -/
theorem claim_regions_sorted_dedup (gj : FetchResult GeoJson)
    (csv : FetchResult (List (List String)))
    (cams : List CameraRecord) (regs : List String)
    (h : useCamerasLoad gj csv = .ok (cams, regs)) :
    regs = regionsOf cams ∧
    List.Pairwise (fun a b => strLeb a b = true) regs ∧
    regs.Nodup ∧
    ∀ s, s ∈ regs ↔ s ∈ cams.map CameraRecord.region := by
  have key : regs = regionsOf cams := by
    rcases gj with _ | ⟨ok, body⟩
    · simp [useCamerasLoad] at h
    · cases ok with
      | true =>
        rcases body with _ | g
        · simp [useCamerasLoad] at h
        · simp only [useCamerasLoad, if_true] at h
          injection h with h
          injection h with h1 h2
          subst h1; subst h2; rfl
      | false =>
        rcases csv with _ | ⟨ok2, body2⟩
        · simp [useCamerasLoad] at h
        · cases ok2 with
          | true =>
            rcases body2 with _ | rows
            · simp [useCamerasLoad] at h
            · simp only [useCamerasLoad, if_true, Bool.false_eq_true, if_false] at h
              injection h with h
              injection h with h1 h2
              subst h1; subst h2; rfl
          | false => simp [useCamerasLoad] at h
  subst key
  refine ⟨rfl, ?_, ?_, ?_⟩
  · exact List.sorted_insertionSort _ _
  · exact ((List.perm_insertionSort _ _).nodup_iff).2 (List.nodup_dedup _)
  · intro s
    unfold regionsOf
    rw [List.Perm.mem_iff (List.perm_insertionSort _ _), List.mem_dedup]

/-- Witness for the amended claim C6 at a concrete successful load. -/
theorem claim_regions_sorted_dedup_witness :
    useCamerasLoad (.response true (.ok gjRegions)) .networkError =
      .ok ([camReg, camNoReg], ["", "Outaouais"]) ∧
    (["", "Outaouais"] : List String) = regionsOf [camReg, camNoReg] ∧
    List.Pairwise (fun a b => strLeb a b = true) (["", "Outaouais"] : List String) ∧
    (["", "Outaouais"] : List String).Nodup ∧
    (("Outaouais" : String) ∈ (["", "Outaouais"] : List String) ↔
      ("Outaouais" : String) ∈ [camReg, camNoReg].map CameraRecord.region) := by
  have h := claim_regions_sorted_dedup (.response true (.ok gjRegions)) .networkError
    [camReg, camNoReg] ["", "Outaouais"] (by decide)
  exact ⟨by decide, h.1, h.2.1, h.2.2.1, h.2.2.2 "Outaouais"⟩

end Q511
